import Mathlib

/-!
Verification of the clickstream analytics pipeline in `ETL.py`.

The input table is modelled as a `List Event`, one element per row, in input
row order.  `event_date` is modelled as a natural-number timestamp (seconds
since the epoch); the pandas `dt.date` projection becomes integer division by
86400 (the number of seconds in a day), which is faithful to the two facts the
code relies on: events on the same calendar day have equal dates, and date
extraction is monotone in the timestamp.

Pandas `groupby(key)` is modelled by `groupKeys`: the distinct key values in
ascending order (pandas sorts group keys by default), each group being the
sub-list of rows carrying that key, in original row order.
-/

structure Event where
  event_date : Nat
  session : String
  user : String
  page_type : String
  event_type : String
  product : Option Nat
deriving DecidableEq, Repr

/-- The distinct values of a key column, sorted ascending: the group keys
produced by a pandas `groupby` (which sorts keys by default). -/
def groupKeys {α : Type} [LinearOrder α] [DecidableEq α] (l : List α) : List α :=
  List.insertionSort (fun a b => a ≤ b) l.dedup

theorem mem_groupKeys {α : Type} [LinearOrder α] [DecidableEq α] {a : α} {l : List α} :
    a ∈ groupKeys l ↔ a ∈ l := by
  rw [groupKeys, (List.perm_insertionSort _ _).mem_iff, List.mem_dedup]

theorem nodup_groupKeys {α : Type} [LinearOrder α] [DecidableEq α] (l : List α) :
    (groupKeys l).Nodup := by
  rw [groupKeys]
  exact (List.perm_insertionSort _ _).nodup_iff.mpr (List.nodup_dedup l)

theorem sorted_groupKeys {α : Type} [LinearOrder α] [DecidableEq α] (l : List α) :
    List.Sorted (fun a b => a ≤ b) (groupKeys l) :=
  List.sorted_insertionSort _ _

theorem length_groupKeys {α : Type} [LinearOrder α] [DecidableEq α] (l : List α) :
    (groupKeys l).length = l.dedup.length := by
  rw [groupKeys, List.length_insertionSort]

theorem groupKeys_eq_of_mem_iff {α : Type} [LinearOrder α] [DecidableEq α] {l l' : List α}
    (h : ∀ a, a ∈ l ↔ a ∈ l') : groupKeys l = groupKeys l' := by
  have hperm : List.Perm (groupKeys l) (groupKeys l') := by
    apply List.perm_of_nodup_nodup_toFinset_eq (nodup_groupKeys l) (nodup_groupKeys l')
    ext a
    simp only [List.mem_toFinset, mem_groupKeys]
    exact h a
  exact List.eq_of_perm_of_sorted hperm (sorted_groupKeys l) (sorted_groupKeys l')

/-- Least element of `a :: l` computed by a left fold, as pandas `min`. -/
def minList (a : Nat) (l : List Nat) : Nat :=
  l.foldl min a

theorem minList_le_init (a : Nat) (l : List Nat) : minList a l ≤ a := by
  induction l generalizing a with
  | nil => exact Nat.le_refl a
  | cons b l ih =>
    have h := ih (min a b)
    exact le_trans h (min_le_left a b)

theorem minList_le_mem (a x : Nat) (l : List Nat) (hx : x ∈ l) : minList a l ≤ x := by
  induction l generalizing a with
  | nil => cases hx
  | cons b l ih =>
    rcases List.mem_cons.mp hx with h | h
    · subst h
      exact le_trans (minList_le_init (min a x) l) (min_le_right a x)
    · exact ih (min a b) h

theorem minList_mem (a : Nat) (l : List Nat) : minList a l = a ∨ minList a l ∈ l := by
  induction l generalizing a with
  | nil => exact Or.inl rfl
  | cons b l ih =>
    have hstep : minList a (b :: l) = minList (min a b) l := rfl
    rcases ih (min a b) with h | h
    · rcases min_cases a b with ⟨hm, _⟩ | ⟨hm, _⟩
      · exact Or.inl (by rw [hstep, h]; exact hm)
      · exact Or.inr (List.mem_cons.mpr (Or.inl (by rw [hstep, h]; exact hm)))
    · exact Or.inr (List.mem_cons.mpr (Or.inr (by rw [hstep]; exact h)))

/-! ## Session funnel (`analyze_funnel`, ETL.py lines 10-24) -/

/-- One row of the `session_journeys` frame: the five aggregated columns of
lines 11-17 plus the four derived columns of lines 19-22. -/
structure SessionJourney where
  session : String
  event_date : Nat
  user : String
  page_type : List String
  event_type : List String
  product : List (Option Nat)
  first_page_type : String
  reached_product : Bool
  reached_cart : Bool
  reached_purchase : Bool
deriving DecidableEq, Repr

/-- The rows of one session's group: the events whose `session` column equals
`s`, in original row order (pandas groups preserve row order). -/
def sessionEvents (df : List Event) (s : String) : List Event :=
  df.filter (fun e => e.session == s)

/-- The journey row built from one (never empty) session group: `min` of
`event_date`, `first` of `user`, the three per-column lists (lines 11-17), and
the derived columns `x[0]`, `'product_page' in x`, `'add_to_cart' in x`,
`'order' in x` (lines 19-22).  The `[]` branch is unreachable: a pandas
groupby never produces an empty group (proved in `funnel_groups_nonempty`). -/
def mkJourney (s : String) (evs : List Event) : SessionJourney :=
  match evs with
  | [] =>
    { session := s, event_date := 0, user := "", page_type := [], event_type := [],
      product := [], first_page_type := "", reached_product := false,
      reached_cart := false, reached_purchase := false }
  | e :: es =>
    { session := s
      event_date := minList e.event_date (es.map (fun x => x.event_date))
      user := e.user
      page_type := (e :: es).map (fun x => x.page_type)
      event_type := (e :: es).map (fun x => x.event_type)
      product := (e :: es).map (fun x => x.product)
      first_page_type := e.page_type
      reached_product := (e :: es).any (fun x => x.page_type == "product_page")
      reached_cart := (e :: es).any (fun x => x.event_type == "add_to_cart")
      reached_purchase := (e :: es).any (fun x => x.event_type == "order") }

/-- `analyze_funnel` (ETL.py lines 10-24): group the events by `session` and
build one journey row per session. -/
def analyze_funnel (df : List Event) : List SessionJourney :=
  (groupKeys (df.map (fun e => e.session))).map (fun s => mkJourney s (sessionEvents df s))

theorem sessionEvents_ne_nil {df : List Event} {s : String}
    (hs : s ∈ groupKeys (df.map (fun e => e.session))) : sessionEvents df s ≠ [] := by
  rw [mem_groupKeys, List.mem_map] at hs
  obtain ⟨e, he, hes⟩ := hs
  have : e ∈ sessionEvents df s := by
    rw [sessionEvents, List.mem_filter]
    exact ⟨he, by simp [hes]⟩
  exact List.ne_nil_of_mem this

theorem mkJourney_session (s : String) (evs : List Event) : (mkJourney s evs).session = s := by
  cases evs <;> rfl

theorem analyze_funnel_map_session (df : List Event) :
    (analyze_funnel df).map (fun j => j.session) = groupKeys (df.map (fun e => e.session)) := by
  rw [analyze_funnel, List.map_map]
  have : ((fun j : SessionJourney => j.session) ∘ fun s => mkJourney s (sessionEvents df s)) =
      fun s => s := by
    funext s
    exact mkJourney_session s (sessionEvents df s)
  rw [this]
  exact List.map_id' _

theorem mem_analyze_funnel {df : List Event} {j : SessionJourney}
    (hj : j ∈ analyze_funnel df) :
    ∃ s ∈ groupKeys (df.map (fun e => e.session)), j = mkJourney s (sessionEvents df s) := by
  rw [analyze_funnel, List.mem_map] at hj
  obtain ⟨s, hs, hjs⟩ := hj
  exact ⟨s, hs, hjs.symm⟩

theorem mkJourney_cons_fields (s : String) (e : Event) (es : List Event) :
    (mkJourney s (e :: es)).user = e.user ∧
    (mkJourney s (e :: es)).event_date = minList e.event_date (es.map (fun x => x.event_date)) ∧
    (mkJourney s (e :: es)).page_type = (e :: es).map (fun x => x.page_type) ∧
    (mkJourney s (e :: es)).event_type = (e :: es).map (fun x => x.event_type) ∧
    (mkJourney s (e :: es)).product = (e :: es).map (fun x => x.product) ∧
    (mkJourney s (e :: es)).first_page_type = e.page_type :=
  ⟨rfl, rfl, rfl, rfl, rfl, rfl⟩

/-- Example input: one session `s1` of one user `u1` with three events, as in
the worked example of the specification. -/
def exDf : List Event :=
  [ { event_date := 100, session := "s1", user := "u1", page_type := "home",
      event_type := "page_view", product := none },
    { event_date := 200, session := "s1", user := "u1", page_type := "product_page",
      event_type := "page_view", product := some 7 },
    { event_date := 150, session := "s1", user := "u1", page_type := "product_page",
      event_type := "add_to_cart", product := some 7 } ]

/-- The journey row `analyze_funnel` builds for session `s1` of `exDf`. -/
def exJourney : SessionJourney := mkJourney "s1" (sessionEvents exDf "s1")

/-- C1: `analyze_funnel` produces exactly one journey per distinct session
(the session column of the output has no duplicates and ranges over exactly
the sessions present in the input); each journey's `first_event_date` is the
minimum `event_date` of that session's events, its `user` is the user of the
first row encountered for the session, and its three sequences are the
session's column values in original input row order, hence of length equal to
the session's event count. -/
theorem funnel_one_journey_per_session (df : List Event) :
    ((analyze_funnel df).map (fun j => j.session)).Nodup ∧
    (∀ s, s ∈ (analyze_funnel df).map (fun j => j.session) ↔
      s ∈ df.map (fun e => e.session)) ∧
    (∀ j, j ∈ analyze_funnel df →
      (∃ e es, sessionEvents df j.session = e :: es ∧ j.user = e.user) ∧
      j.event_date ∈ (sessionEvents df j.session).map (fun e => e.event_date) ∧
      (∀ d ∈ (sessionEvents df j.session).map (fun e => e.event_date), j.event_date ≤ d) ∧
      j.page_type = (sessionEvents df j.session).map (fun e => e.page_type) ∧
      j.event_type = (sessionEvents df j.session).map (fun e => e.event_type) ∧
      j.product = (sessionEvents df j.session).map (fun e => e.product) ∧
      j.page_type.length = (sessionEvents df j.session).length ∧
      j.event_type.length = (sessionEvents df j.session).length ∧
      j.product.length = (sessionEvents df j.session).length) := by
  refine ⟨?_, ?_, ?_⟩
  · rw [analyze_funnel_map_session]
    exact nodup_groupKeys _
  · intro s
    rw [analyze_funnel_map_session]
    exact mem_groupKeys
  · intro j hj
    obtain ⟨s, hs, rfl⟩ := mem_analyze_funnel hj
    rw [mkJourney_session]
    cases hg : sessionEvents df s with
    | nil => exact absurd hg (sessionEvents_ne_nil hs)
    | cons e es =>
      refine ⟨⟨e, es, rfl, rfl⟩, ?_, ?_, rfl, rfl, rfl, ?_, ?_, ?_⟩
      · show minList e.event_date (es.map (fun x => x.event_date)) ∈
          (e :: es).map (fun x => x.event_date)
        rcases minList_mem e.event_date (es.map (fun x => x.event_date)) with h | h
        · rw [List.map_cons, h]
          exact List.mem_cons_self _ _
        · rw [List.map_cons]
          exact List.mem_cons.mpr (Or.inr h)
      · intro d hd
        show minList e.event_date (es.map (fun x => x.event_date)) ≤ d
        rw [List.map_cons] at hd
        rcases List.mem_cons.mp hd with h | h
        · subst h
          exact minList_le_init _ _
        · exact minList_le_mem _ _ _ h
      · show ((e :: es).map (fun x => x.page_type)).length = (e :: es).length
        rw [List.length_map]
      · show ((e :: es).map (fun x => x.event_type)).length = (e :: es).length
        rw [List.length_map]
      · show ((e :: es).map (fun x => x.product)).length = (e :: es).length
        rw [List.length_map]

/-- Witness for C1 at the concrete input `exDf`. -/
theorem funnel_one_journey_per_session_witness :
    exJourney ∈ analyze_funnel exDf ∧
    exJourney.user = "u1" ∧
    exJourney.event_date ∈ (sessionEvents exDf exJourney.session).map (fun e => e.event_date) ∧
    exJourney.page_type = (sessionEvents exDf exJourney.session).map (fun e => e.page_type) := by
  have hj : exJourney ∈ analyze_funnel exDf := by decide
  have h := (funnel_one_journey_per_session exDf).2.2 exJourney hj
  refine ⟨hj, by decide, h.2.1, h.2.2.2.1⟩

/-- C2: in every journey produced by `analyze_funnel`, `first_page_type` is
the first element of `page_type_sequence`, and the three reach flags are pure
membership tests: `reached_product` holds iff `'product_page'` occurs anywhere
in the page-type sequence, `reached_cart` iff `'add_to_cart'` occurs in the
event-type sequence, `reached_purchase` iff `'order'` occurs in the event-type
sequence, insensitive to position and duplicates. -/
theorem funnel_derived_flags (df : List Event) (j : SessionJourney)
    (hj : j ∈ analyze_funnel df) :
    j.page_type.head? = some j.first_page_type ∧
    (j.reached_product = true ↔ "product_page" ∈ j.page_type) ∧
    (j.reached_cart = true ↔ "add_to_cart" ∈ j.event_type) ∧
    (j.reached_purchase = true ↔ "order" ∈ j.event_type) := by
  obtain ⟨s, hs, rfl⟩ := mem_analyze_funnel hj
  cases hg : sessionEvents df s with
  | nil => exact absurd hg (sessionEvents_ne_nil hs)
  | cons e es =>
    refine ⟨rfl, ?_, ?_, ?_⟩
    · show (e :: es).any (fun x => x.page_type == "product_page") = true ↔
        "product_page" ∈ (e :: es).map (fun x => x.page_type)
      simp only [List.any_eq_true, List.mem_map, beq_iff_eq]
    · show (e :: es).any (fun x => x.event_type == "add_to_cart") = true ↔
        "add_to_cart" ∈ (e :: es).map (fun x => x.event_type)
      simp only [List.any_eq_true, List.mem_map, beq_iff_eq]
    · show (e :: es).any (fun x => x.event_type == "order") = true ↔
        "order" ∈ (e :: es).map (fun x => x.event_type)
      simp only [List.any_eq_true, List.mem_map, beq_iff_eq]

/-- Witness for C2 at the concrete input `exDf`: the example journey has
`first_page_type = "home"` at the head of its sequence, reaches the product
page and the cart but records no purchase. -/
theorem funnel_derived_flags_witness :
    exJourney ∈ analyze_funnel exDf ∧
    exJourney.page_type.head? = some exJourney.first_page_type ∧
    (exJourney.reached_product = true ↔ "product_page" ∈ exJourney.page_type) ∧
    exJourney.first_page_type = "home" ∧
    exJourney.reached_product = true ∧
    exJourney.reached_cart = true ∧
    exJourney.reached_purchase = false := by
  have hj : exJourney ∈ analyze_funnel exDf := by decide
  have h := funnel_derived_flags exDf exJourney hj
  exact ⟨hj, h.1, h.2.1, by decide, by decide, by decide, by decide⟩

/-- C10: every session group formed inside `analyze_funnel` contains at least
one event, so each journey's `page_type_sequence` is non-empty and the
index-0 access defining `first_page_type` is total. -/
theorem funnel_groups_nonempty (df : List Event) :
    (∀ s ∈ groupKeys (df.map (fun e => e.session)), sessionEvents df s ≠ []) ∧
    (∀ j ∈ analyze_funnel df, j.page_type ≠ []) := by
  refine ⟨fun s hs => sessionEvents_ne_nil hs, fun j hj => ?_⟩
  obtain ⟨s, hs, rfl⟩ := mem_analyze_funnel hj
  cases hg : sessionEvents df s with
  | nil => exact absurd hg (sessionEvents_ne_nil hs)
  | cons e es =>
    show (e :: es).map (fun x => x.page_type) ≠ []
    simp

/-- Witness for C10 at the concrete input `exDf`. -/
theorem funnel_groups_nonempty_witness :
    ("s1" ∈ groupKeys (exDf.map (fun e => e.session))) ∧
    sessionEvents exDf "s1" ≠ [] ∧
    exJourney ∈ analyze_funnel exDf ∧
    exJourney.page_type ≠ [] := by
  have hs : "s1" ∈ groupKeys (exDf.map (fun e => e.session)) := by decide
  have hj : exJourney ∈ analyze_funnel exDf := by decide
  exact ⟨hs, (funnel_groups_nonempty exDf).1 "s1" hs,
    hj, (funnel_groups_nonempty exDf).2 exJourney hj⟩

/-! ## First-page segmentation (`analyze_by_first_page`, ETL.py lines 26-44) -/

/-- Numeric value of a boolean flag, as pandas uses booleans in a `mean`. -/
def boolToQ (b : Bool) : ℚ := if b then 1 else 0

/-- One row of the `first_page_analysis` frame after the renames of lines
34-39 and the scaling of lines 41-42. -/
structure FirstPageSegment where
  first_page_type : String
  total_sessions : Nat
  product_view_rate : ℚ
  cart_rate : ℚ
  purchase_rate : ℚ
deriving DecidableEq, Repr

/-- The journeys of one `first_page_type` group, in row order. -/
def firstPageGroup (js : List SessionJourney) (p : String) : List SessionJourney :=
  js.filter (fun j => j.first_page_type == p)

/-- The aggregated row for one `first_page_type` group: `count` of `session`,
`mean` of each boolean reach flag (lines 27-32), scaled by 100 (lines 41-42). -/
def mkSegment (js : List SessionJourney) (p : String) : FirstPageSegment :=
  { first_page_type := p
    total_sessions := (firstPageGroup js p).length
    product_view_rate :=
      (((firstPageGroup js p).map (fun j => boolToQ j.reached_product)).sum /
        ((firstPageGroup js p).length : ℚ)) * 100
    cart_rate :=
      (((firstPageGroup js p).map (fun j => boolToQ j.reached_cart)).sum /
        ((firstPageGroup js p).length : ℚ)) * 100
    purchase_rate :=
      (((firstPageGroup js p).map (fun j => boolToQ j.reached_purchase)).sum /
        ((firstPageGroup js p).length : ℚ)) * 100 }

/-- `analyze_by_first_page` (ETL.py lines 26-44): group the journeys by
`first_page_type` and aggregate each group. -/
def analyze_by_first_page (js : List SessionJourney) : List FirstPageSegment :=
  (groupKeys (js.map (fun j => j.first_page_type))).map (fun p => mkSegment js p)

theorem sum_boolToQ {α : Type} (l : List α) (p : α → Bool) :
    (l.map (fun x => boolToQ (p x))).sum = ((l.filter p).length : ℚ) := by
  induction l with
  | nil => simp
  | cons a l ih =>
    rw [List.map_cons, List.sum_cons, ih, List.filter_cons]
    by_cases h : p a
    · rw [if_pos h, h, List.length_cons]
      rw [show boolToQ true = 1 from rfl]
      push_cast
      ring
    · rw [if_neg h]
      have hb : p a = false := by
        rcases Bool.eq_false_or_eq_true (p a) with ht | hf
        · exact absurd ht h
        · exact hf
      rw [hb, show boolToQ false = 0 from rfl]
      ring

theorem analyze_by_first_page_map_key (js : List SessionJourney) :
    (analyze_by_first_page js).map (fun r => r.first_page_type) =
      groupKeys (js.map (fun j => j.first_page_type)) := by
  rw [analyze_by_first_page, List.map_map]
  have : ((fun r : FirstPageSegment => r.first_page_type) ∘ fun p => mkSegment js p) =
      fun p => p := by
    funext p
    rfl
  rw [this]
  exact List.map_id' _

theorem mem_analyze_by_first_page {js : List SessionJourney} {r : FirstPageSegment}
    (hr : r ∈ analyze_by_first_page js) :
    ∃ p ∈ groupKeys (js.map (fun j => j.first_page_type)), r = mkSegment js p := by
  rw [analyze_by_first_page, List.mem_map] at hr
  obtain ⟨p, hp, hpr⟩ := hr
  exact ⟨p, hp, hpr.symm⟩

theorem rate_bounds {α : Type} (l : List α) (p : α → Bool) :
    0 ≤ ((l.map (fun x => boolToQ (p x))).sum / (l.length : ℚ)) * 100 ∧
    ((l.map (fun x => boolToQ (p x))).sum / (l.length : ℚ)) * 100 ≤ 100 := by
  rw [sum_boolToQ]
  rcases Nat.eq_zero_or_pos l.length with h | h
  · rw [List.length_eq_zero.mp h]
    simp
  · have hlen : (0 : ℚ) < (l.length : ℚ) := by exact_mod_cast h
    have hle : ((l.filter p).length : ℚ) ≤ (l.length : ℚ) := by
      exact_mod_cast List.length_filter_le p l
    have hnn : (0 : ℚ) ≤ ((l.filter p).length : ℚ) := by positivity
    constructor
    · positivity
    · have hdiv : ((l.filter p).length : ℚ) / (l.length : ℚ) ≤ 1 := (div_le_one hlen).mpr hle
      calc ((l.filter p).length : ℚ) / (l.length : ℚ) * 100 ≤ 1 * 100 :=
            mul_le_mul_of_nonneg_right hdiv (by norm_num)
        _ = 100 := by norm_num

theorem sum_group_lengths {α β : Type} [LinearOrder β] [DecidableEq β]
    (l : List α) (f : α → β) :
    ((groupKeys (l.map f)).map (fun p => (l.filter (fun x => f x == p)).length)).sum
      = l.length := by
  have hcount : ∀ p : β, (l.filter (fun x => f x == p)).length = (l.map f).count p := by
    intro p
    rw [List.count, List.countP_map]
    rw [List.countP_eq_length_filter]
    rfl
  have hfun : ((groupKeys (l.map f)).map (fun p => (l.filter (fun x => f x == p)).length)) =
      ((groupKeys (l.map f)).map (fun p => (l.map f).count p)) := by
    exact List.map_congr_left (fun p _ => hcount p)
  rw [hfun]
  have hperm : List.Perm ((groupKeys (l.map f)).map (fun p => (l.map f).count p))
      ((l.map f).dedup.map (fun p => (l.map f).count p)) :=
    (List.perm_insertionSort _ _).map _
  rw [hperm.sum_eq]
  rw [List.sum_map_count_dedup_eq_length, List.length_map]

/-- C5: `analyze_by_first_page` produces one row per distinct
`first_page_type`, ordered by `first_page_type` ascending; each row's
`total_sessions` is the group size and each rate column is the group-mean of
the corresponding boolean flag (count of flagged journeys over group size)
multiplied by 100; an empty set of journeys yields an empty report. -/
theorem first_page_report_spec (js : List SessionJourney) :
    List.Sorted (fun a b => a ≤ b)
      ((analyze_by_first_page js).map (fun r => r.first_page_type)) ∧
    ((analyze_by_first_page js).map (fun r => r.first_page_type)).Nodup ∧
    (∀ p, p ∈ (analyze_by_first_page js).map (fun r => r.first_page_type) ↔
      p ∈ js.map (fun j => j.first_page_type)) ∧
    (∀ r ∈ analyze_by_first_page js,
      r.total_sessions = (firstPageGroup js r.first_page_type).length ∧
      r.product_view_rate =
        (((firstPageGroup js r.first_page_type).filter (fun j => j.reached_product)).length : ℚ) /
          ((firstPageGroup js r.first_page_type).length : ℚ) * 100 ∧
      r.cart_rate =
        (((firstPageGroup js r.first_page_type).filter (fun j => j.reached_cart)).length : ℚ) /
          ((firstPageGroup js r.first_page_type).length : ℚ) * 100 ∧
      r.purchase_rate =
        (((firstPageGroup js r.first_page_type).filter (fun j => j.reached_purchase)).length : ℚ) /
          ((firstPageGroup js r.first_page_type).length : ℚ) * 100) ∧
    analyze_by_first_page [] = [] := by
  refine ⟨?_, ?_, ?_, ?_, rfl⟩
  · rw [analyze_by_first_page_map_key]
    exact sorted_groupKeys _
  · rw [analyze_by_first_page_map_key]
    exact nodup_groupKeys _
  · intro p
    rw [analyze_by_first_page_map_key]
    exact mem_groupKeys
  · intro r hr
    obtain ⟨p, hp, rfl⟩ := mem_analyze_by_first_page hr
    refine ⟨rfl, ?_, ?_, ?_⟩
    · show ((firstPageGroup js p).map (fun j => boolToQ j.reached_product)).sum /
          ((firstPageGroup js p).length : ℚ) * 100 = _
      rw [sum_boolToQ]
      rfl
    · show ((firstPageGroup js p).map (fun j => boolToQ j.reached_cart)).sum /
          ((firstPageGroup js p).length : ℚ) * 100 = _
      rw [sum_boolToQ]
      rfl
    · show ((firstPageGroup js p).map (fun j => boolToQ j.reached_purchase)).sum /
          ((firstPageGroup js p).length : ℚ) * 100 = _
      rw [sum_boolToQ]
      rfl

theorem exSegment_mem :
    mkSegment (analyze_funnel exDf) "home" ∈ analyze_by_first_page (analyze_funnel exDf) := by
  have hk : groupKeys ((analyze_funnel exDf).map (fun j => j.first_page_type)) = ["home"] := by
    decide
  rw [analyze_by_first_page, hk]
  exact List.mem_map.mpr ⟨"home", List.mem_cons_self _ _, rfl⟩

/-- Witness for C5 at the concrete input `exDf`. -/
theorem first_page_report_spec_witness :
    mkSegment (analyze_funnel exDf) "home" ∈ analyze_by_first_page (analyze_funnel exDf) ∧
    (mkSegment (analyze_funnel exDf) "home").total_sessions =
      (firstPageGroup (analyze_funnel exDf) "home").length ∧
    (mkSegment (analyze_funnel exDf) "home").total_sessions = 1 := by
  have hm := exSegment_mem
  have h := (first_page_report_spec (analyze_funnel exDf)).2.2.2.1 _ hm
  exact ⟨hm, h.1, by decide⟩

/-- C7: in the report computed from any input's journeys every rate lies in
`[0, 100]`, and `total_sessions` summed over the segment rows equals the
number of distinct session identifiers in the input. -/
theorem report_invariants (df : List Event) :
    (∀ r ∈ analyze_by_first_page (analyze_funnel df),
      0 ≤ r.product_view_rate ∧ r.product_view_rate ≤ 100 ∧
      0 ≤ r.cart_rate ∧ r.cart_rate ≤ 100 ∧
      0 ≤ r.purchase_rate ∧ r.purchase_rate ≤ 100) ∧
    ((analyze_by_first_page (analyze_funnel df)).map (fun r => r.total_sessions)).sum =
      (df.map (fun e => e.session)).dedup.length := by
  constructor
  · intro r hr
    obtain ⟨p, hp, rfl⟩ := mem_analyze_by_first_page hr
    exact ⟨(rate_bounds (firstPageGroup (analyze_funnel df) p) (fun j => j.reached_product)).1,
      (rate_bounds (firstPageGroup (analyze_funnel df) p) (fun j => j.reached_product)).2,
      (rate_bounds (firstPageGroup (analyze_funnel df) p) (fun j => j.reached_cart)).1,
      (rate_bounds (firstPageGroup (analyze_funnel df) p) (fun j => j.reached_cart)).2,
      (rate_bounds (firstPageGroup (analyze_funnel df) p) (fun j => j.reached_purchase)).1,
      (rate_bounds (firstPageGroup (analyze_funnel df) p) (fun j => j.reached_purchase)).2⟩
  · calc ((analyze_by_first_page (analyze_funnel df)).map (fun r => r.total_sessions)).sum
        = ((groupKeys ((analyze_funnel df).map (fun j => j.first_page_type))).map
            (fun p => ((analyze_funnel df).filter
              (fun j => j.first_page_type == p)).length)).sum := by
          rw [analyze_by_first_page, List.map_map]
          rfl
      _ = (analyze_funnel df).length := sum_group_lengths _ _
      _ = (df.map (fun e => e.session)).dedup.length := by
          rw [analyze_funnel, List.length_map, length_groupKeys]

/-- Witness for C7 at the concrete input `exDf`. -/
theorem report_invariants_witness :
    mkSegment (analyze_funnel exDf) "home" ∈ analyze_by_first_page (analyze_funnel exDf) ∧
    0 ≤ (mkSegment (analyze_funnel exDf) "home").product_view_rate ∧
    (mkSegment (analyze_funnel exDf) "home").product_view_rate ≤ 100 ∧
    ((analyze_by_first_page (analyze_funnel exDf)).map (fun r => r.total_sessions)).sum =
      (exDf.map (fun e => e.session)).dedup.length := by
  have hm := exSegment_mem
  have h := (report_invariants exDf).1 _ hm
  exact ⟨hm, h.1, h.2.1, (report_invariants exDf).2⟩

/-! ## Anomaly detection (`detect_abnormal_behavior`, ETL.py lines 66-87) -/

/-- One row of the `user_metrics` frame after the renames of lines 73-77,
together with the derived ratio of line 79. -/
structure UserMetrics where
  user : String
  session_count : Nat
  total_events : Nat
  unique_page_types : Nat
  events_per_session : ℚ
deriving DecidableEq, Repr

/-- The rows of one user's group, in row order. -/
def userEvents (df : List Event) (u : String) : List Event :=
  df.filter (fun e => e.user == u)

/-- A metrics record from its three aggregate numbers; `events_per_session`
is the real-valued division of line 79 (in `ℚ`, with `x / 0 = 0`). -/
def metricsOf (u : String) (sc te upt : Nat) : UserMetrics :=
  { user := u, session_count := sc, total_events := te, unique_page_types := upt,
    events_per_session := (te : ℚ) / (sc : ℚ) }

/-- The aggregated row for one user: `nunique` of `session`, `count` of
`event_type`, `nunique` of `page_type` (lines 67-71). -/
def mkMetrics (df : List Event) (u : String) : UserMetrics :=
  metricsOf u (((userEvents df u).map (fun e => e.session)).dedup.length)
    ((userEvents df u).length)
    (((userEvents df u).map (fun e => e.page_type)).dedup.length)

/-- The `user_metrics` frame of lines 67-79: one row per distinct user. -/
def user_metrics (df : List Event) : List UserMetrics :=
  (groupKeys (df.map (fun e => e.user))).map (fun u => mkMetrics df u)

/-- The row predicate of the boolean mask of lines 81-85. -/
def isAbnormal (m : UserMetrics) : Bool :=
  decide (5 < m.events_per_session) || decide (10 < m.total_events) ||
    (decide (m.unique_page_types = 1) && decide (5 < m.total_events))

/-- `detect_abnormal_behavior` (ETL.py lines 66-87): the per-user metric rows
that satisfy the anomaly disjunction. -/
def detect_abnormal_behavior (df : List Event) : List UserMetrics :=
  (user_metrics df).filter isAbnormal

theorem userEvents_ne_nil {df : List Event} {u : String}
    (hu : u ∈ groupKeys (df.map (fun e => e.user))) : userEvents df u ≠ [] := by
  rw [mem_groupKeys, List.mem_map] at hu
  obtain ⟨e, he, heu⟩ := hu
  have : e ∈ userEvents df u := by
    rw [userEvents, List.mem_filter]
    exact ⟨he, by simp [heu]⟩
  exact List.ne_nil_of_mem this

theorem exMetrics_mem : mkMetrics exDf "u1" ∈ user_metrics exDf := by
  have hk : groupKeys (exDf.map (fun e => e.user)) = ["u1"] := by decide
  rw [user_metrics, hk]
  exact List.mem_map.mpr ⟨"u1", List.mem_cons_self _ _, rfl⟩

/-- C3: `detect_abnormal_behavior` returns exactly those per-user metric rows
satisfying the strict-threshold disjunction; in every row, `session_count` is
the number of distinct sessions the user touched, `total_events` the user's
row count, `unique_page_types` the user's distinct page-type count, and
`events_per_session` the quotient `total_events / session_count`. -/
theorem detect_abnormal_spec (df : List Event) :
    (∀ m ∈ user_metrics df,
      m.session_count = ((userEvents df m.user).map (fun e => e.session)).dedup.length ∧
      m.total_events = (userEvents df m.user).length ∧
      m.unique_page_types = ((userEvents df m.user).map (fun e => e.page_type)).dedup.length ∧
      m.events_per_session = (m.total_events : ℚ) / (m.session_count : ℚ)) ∧
    (∀ m, m ∈ detect_abnormal_behavior df ↔
      m ∈ user_metrics df ∧
        (5 < m.events_per_session ∨ 10 < m.total_events ∨
          (m.unique_page_types = 1 ∧ 5 < m.total_events))) := by
  constructor
  · intro m hm
    rw [user_metrics, List.mem_map] at hm
    obtain ⟨u, hu, rfl⟩ := hm
    exact ⟨rfl, rfl, rfl, rfl⟩
  · intro m
    rw [detect_abnormal_behavior, List.mem_filter]
    constructor
    · rintro ⟨hmem, hab⟩
      refine ⟨hmem, ?_⟩
      rw [isAbnormal] at hab
      simpa only [Bool.or_eq_true, Bool.and_eq_true, decide_eq_true_eq, or_assoc] using hab
    · rintro ⟨hmem, hcond⟩
      refine ⟨hmem, ?_⟩
      rw [isAbnormal]
      simpa only [Bool.or_eq_true, Bool.and_eq_true, decide_eq_true_eq, or_assoc] using hcond

/-- Witness for C3 at the concrete input `exDf`: user `u1` has 3 events in 1
session and 2 distinct page types, and is correctly not flagged. -/
theorem detect_abnormal_spec_witness :
    mkMetrics exDf "u1" ∈ user_metrics exDf ∧
    (mkMetrics exDf "u1").total_events = (userEvents exDf "u1").length ∧
    (mkMetrics exDf "u1").total_events = 3 ∧
    (mkMetrics exDf "u1").session_count = 1 ∧
    (mkMetrics exDf "u1").unique_page_types = 2 ∧
    (mkMetrics exDf "u1" ∈ detect_abnormal_behavior exDf ↔
      mkMetrics exDf "u1" ∈ user_metrics exDf ∧
        (5 < (mkMetrics exDf "u1").events_per_session ∨
          10 < (mkMetrics exDf "u1").total_events ∨
          ((mkMetrics exDf "u1").unique_page_types = 1 ∧
            5 < (mkMetrics exDf "u1").total_events))) := by
  have hm := exMetrics_mem
  have h := (detect_abnormal_spec exDf).1 _ hm
  exact ⟨hm, h.2.1, by decide, by decide, by decide, (detect_abnormal_spec exDf).2 _⟩

/-- C9: every per-user metrics record has `session_count ≥ 1`, so the
division defining `events_per_session` never has a zero denominator. -/
theorem session_count_positive (df : List Event) (m : UserMetrics)
    (hm : m ∈ user_metrics df) :
    1 ≤ m.session_count ∧ (m.session_count : ℚ) ≠ 0 := by
  rw [user_metrics, List.mem_map] at hm
  obtain ⟨u, hu, rfl⟩ := hm
  have hne : userEvents df u ≠ [] := userEvents_ne_nil hu
  have hmapne : (userEvents df u).map (fun e => e.session) ≠ [] := by
    simpa using hne
  have hdedupne : ((userEvents df u).map (fun e => e.session)).dedup ≠ [] := by
    intro hcon
    exact hmapne ((List.dedup_eq_nil _).mp hcon)
  have hpos : 0 < ((userEvents df u).map (fun e => e.session)).dedup.length :=
    List.length_pos.mpr hdedupne
  constructor
  · exact hpos
  · have : ((mkMetrics df u).session_count : Nat) ≠ 0 := Nat.pos_iff_ne_zero.mp hpos
    exact_mod_cast this

/-- Witness for C9 at the concrete input `exDf`. -/
theorem session_count_positive_witness :
    mkMetrics exDf "u1" ∈ user_metrics exDf ∧
    1 ≤ (mkMetrics exDf "u1").session_count ∧
    ((mkMetrics exDf "u1").session_count : ℚ) ≠ 0 := by
  have hm := exMetrics_mem
  have h := session_count_positive exDf _ hm
  exact ⟨hm, h.1, h.2⟩

/-- C8: the anomaly flag is monotone in `total_events` with `session_count`
and `unique_page_types` held fixed: if a record with the smaller event count
is flagged, the record with the larger event count is flagged too. -/
theorem abnormal_monotone_total_events (u : String) (sc upt t1 t2 : Nat)
    (hle : t1 ≤ t2) (h1 : isAbnormal (metricsOf u sc t1 upt) = true) :
    isAbnormal (metricsOf u sc t2 upt) = true := by
  simp only [isAbnormal, metricsOf, Bool.or_eq_true, Bool.and_eq_true,
    decide_eq_true_eq] at h1 ⊢
  rcases h1 with (h | h) | h
  · left; left
    rcases Nat.eq_zero_or_pos sc with hsc | hsc
    · subst hsc
      rw [Nat.cast_zero, div_zero] at h
      exact absurd h (by norm_num)
    · have hscq : (0 : ℚ) < (sc : ℚ) := by exact_mod_cast hsc
      have hteq : (t1 : ℚ) ≤ (t2 : ℚ) := by exact_mod_cast hle
      exact lt_of_lt_of_le h ((div_le_div_iff_of_pos_right hscq).mpr hteq)
  · left; right
    omega
  · right
    exact ⟨h.1, by omega⟩

/-- Witness for C8: the spec's example user with 2 sessions and 12 events is
flagged (ratio 6 exceeds 5), and stays flagged at 15 events. -/
theorem abnormal_monotone_total_events_witness :
    (12 : Nat) ≤ 15 ∧ isAbnormal (metricsOf "u2" 2 12 4) = true ∧
    isAbnormal (metricsOf "u2" 2 15 4) = true := by
  have h1 : isAbnormal (metricsOf "u2" 2 12 4) = true := by
    simp only [isAbnormal, metricsOf, Bool.or_eq_true, Bool.and_eq_true, decide_eq_true_eq]
    left; left
    norm_num
  exact ⟨by norm_num, h1, abnormal_monotone_total_events "u2" 2 4 12 15 (by norm_num) h1⟩

/-! ## Product-only first-day viewers (`analyze_product_only_viewers`,
ETL.py lines 46-64) -/

/-- Calendar date of a timestamp (`dt.date`, lines 48 and 50): the day
number, with 86400 seconds per day. -/
def dateOf (t : Nat) : Nat := t / 86400

/-- `min` of `event_date` over a group (line 47); the `[]` case never arises
for a user taken from the frame. -/
def minEventDate (l : List Event) : Nat :=
  match l with
  | [] => 0
  | e :: es => minList e.event_date (es.map (fun x => x.event_date))

/-- A user's first active calendar date (lines 47-48). -/
def firstDate (df : List Event) (u : String) : Nat :=
  dateOf (minEventDate (userEvents df u))

/-- The merge of line 51: `df` inner-joined with `first_sessions` on
`(user, date)` keeps exactly the rows whose own calendar date equals their
user's first active date, in original row order. -/
def mergedFirstDay (df : List Event) : List Event :=
  df.filter (fun e => dateOf e.event_date == firstDate df e.user)

/-- One row of the `product_only` frame of lines 53-57. -/
structure ProductOnlyRow where
  user : String
  date : Nat
  all_page_view : Bool
  any_product_page : Bool
deriving DecidableEq, Repr

/-- The per-user aggregation of lines 53-57 over the merged rows: `first` of
the `date` column, `all(e == 'page_view')` over `event_type`,
`any(p == 'product_page')` over `page_type`. -/
def mkProductOnlyRow (merged : List Event) (u : String) : ProductOnlyRow :=
  { user := u
    date := ((merged.filter (fun e => e.user == u)).map (fun e => dateOf e.event_date)).headD 0
    all_page_view :=
      (merged.filter (fun e => e.user == u)).all (fun e => e.event_type == "page_view")
    any_product_page :=
      (merged.filter (fun e => e.user == u)).any (fun e => e.page_type == "product_page") }

/-- The `product_only` frame: one row per user present in the merged frame. -/
def product_only (df : List Event) : List ProductOnlyRow :=
  (groupKeys ((mergedFirstDay df).map (fun e => e.user))).map
    (fun u => mkProductOnlyRow (mergedFirstDay df) u)

/-- The boolean-mask filter of lines 59-62. -/
def productOnlyViewersRows (df : List Event) : List ProductOnlyRow :=
  (product_only df).filter (fun r => r.all_page_view && r.any_product_page)

/-- `analyze_product_only_viewers` (ETL.py lines 46-64): per-date sizes of
the filtered frame (line 64), as `(date, viewers_count)` pairs. -/
def analyze_product_only_viewers (df : List Event) : List (Nat × Nat) :=
  (groupKeys ((productOnlyViewersRows df).map (fun r => r.date))).map
    (fun d => (d, ((productOnlyViewersRows df).filter (fun r => r.date == d)).length))

/-- A user's events on their first active calendar day (specification side). -/
def firstDayEvents (df : List Event) (u : String) : List Event :=
  (userEvents df u).filter (fun e => dateOf e.event_date == firstDate df u)

/-- The product-only-viewer criterion of the specification: on the first
active day, every event is a `page_view` and at least one is on a
`product_page`. -/
def qualifies (df : List Event) (u : String) : Bool :=
  (firstDayEvents df u).all (fun e => e.event_type == "page_view") &&
    (firstDayEvents df u).any (fun e => e.page_type == "product_page")

theorem mem_userEvents {df : List Event} {u : String} {e : Event}
    (he : e ∈ userEvents df u) : e ∈ df ∧ e.user = u := by
  rw [userEvents, List.mem_filter] at he
  exact ⟨he.1, by simpa using he.2⟩

theorem exists_min_event {df : List Event} {u : String} (hne : userEvents df u ≠ []) :
    ∃ e ∈ userEvents df u, e.event_date = minEventDate (userEvents df u) := by
  cases hg : userEvents df u with
  | nil => exact absurd hg hne
  | cons e es =>
    rcases minList_mem e.event_date (es.map (fun x => x.event_date)) with h | h
    · exact ⟨e, List.mem_cons_self _ _, h.symm⟩
    · obtain ⟨x, hx, hxd⟩ := List.mem_map.mp h
      exact ⟨x, List.mem_cons.mpr (Or.inr hx), hxd⟩

theorem merged_group_eq_firstDayEvents (df : List Event) (u : String) :
    (mergedFirstDay df).filter (fun e => e.user == u) = firstDayEvents df u := by
  rw [mergedFirstDay, firstDayEvents, userEvents, List.filter_filter, List.filter_filter]
  apply List.filter_congr
  intro e _
  by_cases h : e.user = u
  · simp [h]
  · have hb : (e.user == u) = false := by
      simp [h]
    rw [hb]
    simp

theorem mem_merged_users (df : List Event) (u : String) :
    u ∈ (mergedFirstDay df).map (fun e => e.user) ↔ u ∈ df.map (fun e => e.user) := by
  constructor
  · intro hu
    obtain ⟨e, he, heu⟩ := List.mem_map.mp hu
    rw [mergedFirstDay, List.mem_filter] at he
    exact List.mem_map.mpr ⟨e, he.1, heu⟩
  · intro hu
    have hne : userEvents df u ≠ [] :=
      userEvents_ne_nil (mem_groupKeys.mpr hu)
    obtain ⟨e, he, hed⟩ := exists_min_event hne
    obtain ⟨hedf, heu⟩ := mem_userEvents he
    refine List.mem_map.mpr ⟨e, ?_, heu⟩
    rw [mergedFirstDay, List.mem_filter]
    refine ⟨hedf, ?_⟩
    rw [heu, firstDate, ← hed]
    exact beq_self_eq_true _

theorem firstDayEvents_ne_nil {df : List Event} {u : String}
    (hu : u ∈ groupKeys (df.map (fun e => e.user))) : firstDayEvents df u ≠ [] := by
  have hne : userEvents df u ≠ [] := userEvents_ne_nil hu
  obtain ⟨e, he, hed⟩ := exists_min_event hne
  have : e ∈ firstDayEvents df u := by
    rw [firstDayEvents, List.mem_filter]
    refine ⟨he, ?_⟩
    rw [firstDate, ← hed]
    exact beq_self_eq_true _
  exact List.ne_nil_of_mem this

theorem mem_firstDayEvents_date {df : List Event} {u : String} {e : Event}
    (he : e ∈ firstDayEvents df u) : dateOf e.event_date = firstDate df u := by
  rw [firstDayEvents, List.mem_filter] at he
  exact beq_iff_eq.mp he.2

theorem productOnlyRow_user (df : List Event) (u : String) :
    (mkProductOnlyRow (mergedFirstDay df) u).user = u := rfl

theorem productOnlyRow_date (df : List Event) (u : String)
    (hu : u ∈ groupKeys (df.map (fun e => e.user))) :
    (mkProductOnlyRow (mergedFirstDay df) u).date = firstDate df u := by
  show (((mergedFirstDay df).filter (fun e => e.user == u)).map
      (fun e => dateOf e.event_date)).headD 0 = firstDate df u
  rw [merged_group_eq_firstDayEvents]
  cases hg : firstDayEvents df u with
  | nil => exact absurd hg (firstDayEvents_ne_nil hu)
  | cons e es =>
    have he : e ∈ firstDayEvents df u := by
      rw [hg]
      exact List.mem_cons_self _ _
    rw [List.map_cons, List.headD_cons]
    exact mem_firstDayEvents_date he

theorem productOnlyRow_flags (df : List Event) (u : String) :
    (mkProductOnlyRow (mergedFirstDay df) u).all_page_view =
      (firstDayEvents df u).all (fun e => e.event_type == "page_view") ∧
    (mkProductOnlyRow (mergedFirstDay df) u).any_product_page =
      (firstDayEvents df u).any (fun e => e.page_type == "product_page") := by
  constructor
  · show ((mergedFirstDay df).filter (fun e => e.user == u)).all
      (fun e => e.event_type == "page_view") = _
    rw [merged_group_eq_firstDayEvents]
  · show ((mergedFirstDay df).filter (fun e => e.user == u)).any
      (fun e => e.page_type == "product_page") = _
    rw [merged_group_eq_firstDayEvents]

theorem product_only_eq (df : List Event) :
    product_only df = (groupKeys (df.map (fun e => e.user))).map
      (fun u => mkProductOnlyRow (mergedFirstDay df) u) := by
  rw [product_only, groupKeys_eq_of_mem_iff (fun u => mem_merged_users df u)]

theorem productOnlyViewersRows_eq (df : List Event) :
    productOnlyViewersRows df =
      ((groupKeys (df.map (fun e => e.user))).filter (fun u => qualifies df u)).map
        (fun u => mkProductOnlyRow (mergedFirstDay df) u) := by
  rw [productOnlyViewersRows, product_only_eq, List.filter_map]
  congr 1
  apply List.filter_congr
  intro u _
  show ((mkProductOnlyRow (mergedFirstDay df) u).all_page_view &&
      (mkProductOnlyRow (mergedFirstDay df) u).any_product_page) = qualifies df u
  rw [(productOnlyRow_flags df u).1, (productOnlyRow_flags df u).2, qualifies]

theorem productOnlyViewersRows_dates (df : List Event) :
    (productOnlyViewersRows df).map (fun r => r.date) =
      ((groupKeys (df.map (fun e => e.user))).filter (fun u => qualifies df u)).map
        (fun u => firstDate df u) := by
  rw [productOnlyViewersRows_eq, List.map_map]
  apply List.map_congr_left
  intro u hu
  exact productOnlyRow_date df u (List.mem_of_mem_filter hu)

theorem productOnlyViewers_count (df : List Event) (d : Nat) :
    ((productOnlyViewersRows df).filter (fun r => r.date == d)).length =
      ((groupKeys (df.map (fun e => e.user))).filter
        (fun u => qualifies df u && (firstDate df u == d))).length := by
  rw [productOnlyViewersRows_eq, List.filter_map, List.length_map, List.filter_filter]
  apply congrArg List.length
  apply List.filter_congr
  intro u hu
  show (((mkProductOnlyRow (mergedFirstDay df) u).date == d) && qualifies df u) =
    (qualifies df u && (firstDate df u == d))
  rw [productOnlyRow_date df u hu]
  exact Bool.and_comm _ _

theorem analyze_product_only_viewers_eq (df : List Event) :
    analyze_product_only_viewers df =
      (groupKeys (((groupKeys (df.map (fun e => e.user))).filter
          (fun u => qualifies df u)).map (fun u => firstDate df u))).map
        (fun d => (d, ((groupKeys (df.map (fun e => e.user))).filter
          (fun u => qualifies df u && (firstDate df u == d))).length)) := by
  rw [analyze_product_only_viewers, productOnlyViewersRows_dates]
  apply List.map_congr_left
  intro d _
  exact congrArg (fun n => (d, n)) (productOnlyViewers_count df d)

/-- C4: each record of `analyze_product_only_viewers` carries a distinct
calendar date (no duplicate dates) and counts exactly the distinct users who
qualify (first active day all `page_view` with at least one `product_page`)
and whose first active date is that record's date; every count is at least 1,
so dates with no qualifying user produce no record; and every qualifying
user's first active date does appear, with its count, in the output. -/
theorem product_only_viewers_spec (df : List Event) :
    ((analyze_product_only_viewers df).map (fun p => p.1)).Nodup ∧
    (∀ p ∈ analyze_product_only_viewers df,
      p.2 = ((groupKeys (df.map (fun e => e.user))).filter
        (fun u => qualifies df u && (firstDate df u == p.1))).length ∧
      1 ≤ p.2) ∧
    (∀ u ∈ groupKeys (df.map (fun e => e.user)), qualifies df u = true →
      (firstDate df u,
        ((groupKeys (df.map (fun e => e.user))).filter
          (fun v => qualifies df v && (firstDate df v == firstDate df u))).length) ∈
        analyze_product_only_viewers df) := by
  refine ⟨?_, ?_, ?_⟩
  · have h : (analyze_product_only_viewers df).map (fun p => p.1) =
        groupKeys ((productOnlyViewersRows df).map (fun r => r.date)) := by
      rw [analyze_product_only_viewers, List.map_map]
      have hc : ((fun p : Nat × Nat => p.1) ∘ fun d =>
          (d, ((productOnlyViewersRows df).filter (fun r => r.date == d)).length)) =
          fun d => d := rfl
      rw [hc]
      exact List.map_id' _
    rw [h]
    exact nodup_groupKeys _
  · intro p hp
    rw [analyze_product_only_viewers_eq, List.mem_map] at hp
    obtain ⟨d, hd, rfl⟩ := hp
    refine ⟨rfl, ?_⟩
    rw [mem_groupKeys, List.mem_map] at hd
    obtain ⟨u, huQ, hud⟩ := hd
    have hmem : u ∈ (groupKeys (df.map (fun e => e.user))).filter
        (fun v => qualifies df v && (firstDate df v == d)) := by
      rw [List.mem_filter]
      have h1 := List.mem_filter.mp huQ
      refine ⟨h1.1, ?_⟩
      rw [Bool.and_eq_true]
      refine ⟨h1.2, ?_⟩
      rw [hud]
      exact beq_self_eq_true _
    exact List.length_pos.mpr (List.ne_nil_of_mem hmem)
  · intro u hu hq
    rw [analyze_product_only_viewers_eq]
    apply List.mem_map.mpr
    refine ⟨firstDate df u, ?_, rfl⟩
    rw [mem_groupKeys]
    apply List.mem_map.mpr
    refine ⟨u, ?_, rfl⟩
    rw [List.mem_filter]
    exact ⟨hu, hq⟩

/-- Example input for the product-only cohort: one user `u3` whose only
activity is two product-page views on their first (and only) day, as in the
specification's worked example. -/
def exDf2 : List Event :=
  [ { event_date := 100, session := "s1", user := "u3", page_type := "product_page",
      event_type := "page_view", product := some 1 },
    { event_date := 200, session := "s1", user := "u3", page_type := "product_page",
      event_type := "page_view", product := some 2 } ]

/-- Witness for C4 at the concrete input `exDf2`: user `u3` qualifies, and
day 0 appears in the output counting exactly this one user. -/
theorem product_only_viewers_spec_witness :
    "u3" ∈ groupKeys (exDf2.map (fun e => e.user)) ∧
    qualifies exDf2 "u3" = true ∧
    (firstDate exDf2 "u3",
      ((groupKeys (exDf2.map (fun e => e.user))).filter
        (fun v => qualifies exDf2 v && (firstDate exDf2 v == firstDate exDf2 "u3"))).length) ∈
      analyze_product_only_viewers exDf2 ∧
    analyze_product_only_viewers exDf2 = [(0, 1)] := by
  have hu : "u3" ∈ groupKeys (exDf2.map (fun e => e.user)) := by decide
  have hq : qualifies exDf2 "u3" = true := by decide
  exact ⟨hu, hq, (product_only_viewers_spec exDf2).2.2 "u3" hu hq, by decide⟩

/-! ## Frame effects of the four analyses (`main`, ETL.py lines 89-98)

The shared pandas frame is modelled as its Event rows together with the
optional derived `date` column: `load_data` returns a frame without it, and
line 50 (`df['date'] = df['event_date'].dt.date`) assigns it in place on the
caller's frame.  Each analysis is modelled as returning its result together
with the state of its input after the call. -/

structure DataFrame where
  rows : List Event
  date_col : Option (List Nat)
deriving DecidableEq, Repr

/-- `analyze_funnel` only reads `df` (lines 10-24). -/
def analyze_funnel_run (d : DataFrame) : List SessionJourney × DataFrame :=
  (analyze_funnel d.rows, d)

/-- `analyze_by_first_page` only reads the journeys frame (lines 26-44). -/
def analyze_by_first_page_run (js : List SessionJourney) :
    List FirstPageSegment × List SessionJourney :=
  (analyze_by_first_page js, js)

/-- `detect_abnormal_behavior` only reads `df` (lines 66-87). -/
def detect_abnormal_behavior_run (d : DataFrame) : List UserMetrics × DataFrame :=
  (detect_abnormal_behavior d.rows, d)

/-- `analyze_product_only_viewers` reads `df` but also executes the in-place
column assignment of line 50, leaving the caller's frame with a `date`
column. -/
def analyze_product_only_viewers_run (d : DataFrame) : List (Nat × Nat) × DataFrame :=
  (analyze_product_only_viewers d.rows,
    { rows := d.rows, date_col := some (d.rows.map (fun e => dateOf e.event_date)) })

/-- The frame `main` loads: no `date` column yet. -/
def exDF : DataFrame := { rows := exDf, date_col := none }

/-- Counterexample to C6 as stated: on the concrete loaded frame `exDF`,
`analyze_product_only_viewers` does not leave the shared input table exactly
as it was — it adds a `date` column (ETL.py line 50). -/
theorem product_only_mutates_input :
    (analyze_product_only_viewers_run exDF).2 ≠ exDF := by decide

/-- C6 amended: `analyze_funnel`, `analyze_by_first_page` and
`detect_abnormal_behavior` leave their input frame unchanged, and
`analyze_product_only_viewers` preserves every Event row (all original
columns and their values) while adding the derived `date` column.  Since
every analysis reads only the Event rows, each analysis computes the same
result before and after any other has run, so the four analyses can be
computed in any order with identical results. -/
theorem analyses_preserve_rows (d : DataFrame) :
    (analyze_funnel_run d).2 = d ∧
    (detect_abnormal_behavior_run d).2 = d ∧
    (∀ js : List SessionJourney, (analyze_by_first_page_run js).2 = js) ∧
    (analyze_product_only_viewers_run d).2.rows = d.rows ∧
    (analyze_funnel_run ((analyze_product_only_viewers_run d).2)).1 =
      (analyze_funnel_run d).1 ∧
    (detect_abnormal_behavior_run ((analyze_product_only_viewers_run d).2)).1 =
      (detect_abnormal_behavior_run d).1 ∧
    (analyze_product_only_viewers_run ((analyze_product_only_viewers_run d).2)).1 =
      (analyze_product_only_viewers_run d).1 :=
  ⟨rfl, rfl, fun _ => rfl, rfl, rfl, rfl, rfl⟩
